import Mathlib

/-
  Shallow embedding of the gocnc interpreter/VM (src/vm/main.go).

  Modelling conventions:
  * Go float64 values are modelled as real numbers; arithmetic is exact.
  * Go (value, error) pairs are modelled as products with Option String errors.
  * Go panics inside approximateArc, recovered in run, are modelled by
    returning a Machine together with an Option String error.
  * The position stack grows at the tail of a List.
-/

namespace Gocnc

/-- gcode.Word: an address letter paired with a numeric command value. -/
structure Word where
  address : Char
  command : ℝ

/-- A Statement is an ordered sequence of words (main.go line 56). -/
abbrev Statement := List Word

/-- Loop body of Statement.get (main.go lines 58-73): scans for the address,
keeping a found-flag and the first value; a second occurrence returns the
first value with an error, a missing address returns the zero value with an
error. -/
def getLoop : List Word → Char → Bool → ℝ → ℝ × Option String
  | [], _, found, res =>
      if found then (res, none) else (res, some "address not found in block")
  | m :: rest, address, found, res =>
      if m.address = address then
        if found then (res, some "Multiple instances of address in block")
        else getLoop rest address true m.command
      else getLoop rest address found res

/-- Statement.get (main.go lines 58-73). -/
def get (stmt : Statement) (address : Char) : ℝ × Option String :=
  getLoop stmt address false 0

/-- Statement.getDefault (main.go lines 75-81), exactly as written: the
result of get is returned when get failed, and the default is returned when
get succeeded. -/
def getDefault (stmt : Statement) (address : Char) (d : ℝ) : ℝ :=
  if (get stmt address).2 = none then d else (get stmt address).1

/-- Statement.getAll (main.go lines 83-90): all values for the address, in
order. -/
def getAll (stmt : Statement) (address : Char) : List ℝ :=
  stmt.filterMap (fun m => if m.address = address then some m.command else none)

/-- Statement.includes (main.go lines 92-100): true as soon as get succeeds
for one of the given addresses. -/
def includes (stmt : Statement) (addresses : List Char) : Bool :=
  addresses.any (fun a => (get stmt a).2.isNone)

/-- Move mode constants (main.go lines 116-122). -/
def moveModeNone : ℕ := 0

def moveModeRapid : ℕ := 1

def moveModeLinear : ℕ := 2

def moveModeCWArc : ℕ := 3

def moveModeCCWArc : ℕ := 4

/-- Plane selection constants (main.go lines 125-129). -/
def planeXY : ℕ := 0

def planeXZ : ℕ := 1

def planeYZ : ℕ := 2

/-- Move state (main.go lines 132-140). -/
structure State where
  feedrate : ℝ
  spindleSpeed : ℝ
  moveMode : ℕ
  spindleEnabled : Bool
  spindleClockwise : Bool
  floodCoolant : Bool
  mistCoolant : Bool

/-- The Go zero value of State. -/
def defaultState : State :=
  { feedrate := 0, spindleSpeed := 0, moveMode := moveModeNone,
    spindleEnabled := false, spindleClockwise := false,
    floodCoolant := false, mistCoolant := false }

/-- Position and state (main.go lines 143-146). -/
structure Position where
  state : State
  x : ℝ
  y : ℝ
  z : ℝ

/-- The Go zero value of Position: the synthetic start position pushed by
Init. -/
def defaultPosition : Position :=
  { state := defaultState, x := 0, y := 0, z := 0 }

/-- Machine state and settings (main.go lines 149-160). -/
structure Machine where
  state : State
  metric : Bool
  absoluteMove : Bool
  absoluteArc : Bool
  movePlane : ℕ
  completed : Bool
  maxArcDeviation : ℝ
  minArcLineLength : ℝ
  tolerance : ℝ
  posStack : List Position

/-- The Go zero value of Machine, on which Init is called. -/
def machineZero : Machine :=
  { state := defaultState, metric := false, absoluteMove := false,
    absoluteArc := false, movePlane := 0, completed := false,
    maxArcDeviation := 0, minArcLineLength := 0, tolerance := 0,
    posStack := [] }

/-- curPos (main.go lines 167-169): the top of the position stack.  Go
indexes posStack[len-1], which panics on an empty stack; the stack is never
empty after Init, and we return the zero Position in that unreachable
case. -/
def curPos (vm : Machine) : Position :=
  vm.posStack.getLastD defaultPosition

/-- addPos (main.go lines 172-174): append a position to the stack. -/
def addPos (vm : Machine) (pos : Position) : Machine :=
  { vm with posStack := vm.posStack ++ [pos] }

/-- The resolved output of calcPos: target coordinates and arc center. -/
structure ResolvedPos where
  x : ℝ
  y : ℝ
  z : ℝ
  i : ℝ
  j : ℝ
  k : ℝ

/-- One X/Y/Z axis resolution step of calcPos (main.go lines 181-197): take
the statement value (converting inch input to metric when the machine is in
imperial mode), or the current coordinate when get fails. -/
def resolveAxis (vm : Machine) (stmt : Statement) (address : Char) (cur : ℝ) : ℝ :=
  if (get stmt address).2 = none then
    (if vm.metric then (get stmt address).1 else (get stmt address).1 * 25.4)
  else cur

/-- calcPos (main.go lines 177-215).  The imperial conversion of newK uses
newZ instead of newK, exactly as in the source (line 204). -/
def calcPos (vm : Machine) (stmt : Statement) : ResolvedPos :=
  let pos := curPos vm
  let newX := resolveAxis vm stmt 'X' pos.x
  let newY := resolveAxis vm stmt 'Y' pos.y
  let newZ := resolveAxis vm stmt 'Z' pos.z
  let i0 := getDefault stmt 'I' 0
  let j0 := getDefault stmt 'J' 0
  let k0 := getDefault stmt 'K' 0
  let newI := if vm.metric then i0 else i0 * 25.4
  let newJ := if vm.metric then j0 else j0 * 25.4
  let newK := if vm.metric then k0 else newZ * 25.4
  { x := if vm.absoluteMove then newX else pos.x + newX
    y := if vm.absoluteMove then newY else pos.y + newY
    z := if vm.absoluteMove then newZ else pos.z + newZ
    i := if vm.absoluteArc then newI else pos.x + newI
    j := if vm.absoluteArc then newJ else pos.y + newJ
    k := if vm.absoluteArc then newK else pos.z + newK }

/-- positioning (main.go lines 218-221): append the resolved target with the
current state snapshot. -/
def positioning (vm : Machine) (stmt : Statement) : Machine :=
  let r := calcPos vm stmt
  addPos vm { state := vm.state, x := r.x, y := r.y, z := r.z }

/-- Two-argument arctangent, the model of math.Atan2: the argument of the
complex number with the given real and imaginary parts. -/
noncomputable def atan2 (y x : ℝ) : ℝ :=
  Complex.arg { re := x, im := y }

/-- Go conversion int(x) of a float to an int: truncation toward zero. -/
noncomputable def goTrunc (x : ℝ) : ℤ :=
  if 0 ≤ x then ⌊x⌋ else ⌈x⌉

/-- The arc start/end/center coordinates after the per-plane axis
permutation (main.go lines 242-262): s is the start, e the resolved end,
c the arc center, axes 1 and 2 span the arc plane and axis 3 is the
height. -/
structure ArcFrame where
  s1 : ℝ
  s2 : ℝ
  s3 : ℝ
  e1 : ℝ
  e2 : ℝ
  e3 : ℝ
  c1 : ℝ
  c2 : ℝ

/-- Per-plane permutation of start, end and center (main.go lines 242-262).
An out-of-range movePlane leaves the Go variables at their zero values (and
a nil add closure); the zero frame then fails the radius-zero check before
add is ever called. -/
def arcFrame (vm : Machine) (stmt : Statement) : ArcFrame :=
  let startPos := curPos vm
  let r := calcPos vm stmt
  if vm.movePlane = planeXY then
    { s1 := startPos.x, s2 := startPos.y, s3 := startPos.z,
      e1 := r.x, e2 := r.y, e3 := r.z, c1 := r.i, c2 := r.j }
  else if vm.movePlane = planeXZ then
    { s1 := startPos.z, s2 := startPos.x, s3 := startPos.y,
      e1 := r.z, e2 := r.x, e3 := r.y, c1 := r.k, c2 := r.i }
  else if vm.movePlane = planeYZ then
    { s1 := startPos.y, s2 := startPos.z, s3 := startPos.x,
      e1 := r.y, e2 := r.z, e3 := r.x, c1 := r.j, c2 := r.k }
  else
    { s1 := 0, s2 := 0, s3 := 0, e1 := 0, e2 := 0, e3 := 0, c1 := 0, c2 := 0 }

/-- The per-plane add closure (main.go lines 245-261): map canonical plane
coordinates back to physical axes and append through positioning.  The
unreachable out-of-range plane (a nil closure in Go) is the identity. -/
def arcAdd (c : Machine) (m : Machine) (x y z : ℝ) : Machine :=
  if c.movePlane = planeXY then
    positioning m [{ address := 'X', command := x }, { address := 'Y', command := y },
      { address := 'Z', command := z }]
  else if c.movePlane = planeXZ then
    positioning m [{ address := 'X', command := y }, { address := 'Y', command := z },
      { address := 'Z', command := x }]
  else if c.movePlane = planeYZ then
    positioning m [{ address := 'X', command := z }, { address := 'Y', command := x },
      { address := 'Z', command := y }]
  else m

/-- Radius from the center to the start point (main.go line 264). -/
noncomputable def arcRadius1 (vm : Machine) (stmt : Statement) : ℝ :=
  let f := arcFrame vm stmt
  Real.sqrt ((f.c1 - f.s1) ^ 2 + (f.c2 - f.s2) ^ 2)

/-- Radius from the center to the end point (main.go line 265). -/
noncomputable def arcRadius2 (vm : Machine) (stmt : Statement) : ℝ :=
  let f := arcFrame vm stmt
  Real.sqrt ((f.c1 - f.e1) ^ 2 + (f.c2 - f.e2) ^ 2)

/-- Start angle about the center (main.go line 274). -/
noncomputable def arcTheta1 (vm : Machine) (stmt : Statement) : ℝ :=
  let f := arcFrame vm stmt
  atan2 (f.s2 - f.c2) (f.s1 - f.c1)

/-- End angle about the center (main.go line 275). -/
noncomputable def arcTheta2 (vm : Machine) (stmt : Statement) : ℝ :=
  let f := arcFrame vm stmt
  atan2 (f.e2 - f.c2) (f.e1 - f.c1)

/-- The clockwise flag read at entry to approximateArc (main.go line 230). -/
def arcClockwise (vm : Machine) : Bool :=
  vm.state.moveMode == moveModeCWArc

/-- The P parameter of an arc statement (main.go lines 236-239): the value
when get succeeds, 0 otherwise. -/
def arcP (stmt : Statement) : ℝ :=
  if (get stmt 'P').2 = none then (get stmt 'P').1 else 0

/-- Angular sweep of the arc (main.go lines 277-288): direction-corrected
difference of end and start angles, plus P extra full turns in the
direction of travel. -/
noncomputable def arcAngleDiff (vm : Machine) (stmt : Statement) : ℝ :=
  let cw := arcClockwise vm
  let d0 := arcTheta2 vm stmt - arcTheta1 vm stmt
  let d1 :=
    if d0 < 0 ∧ cw = false then d0 + 2 * Real.pi
    else if 0 < d0 ∧ cw = true then d0 - 2 * Real.pi
    else d0
  if cw then d1 - arcP stmt * 2 * Real.pi else d1 + arcP stmt * 2 * Real.pi

/-- The angular-deviation bound on the segment count (main.go lines
290-293): a chord-deviation-driven count when the tolerance is below the
radius, otherwise the initial value 1.  Go computes int(math.Ceil(|q|)),
which is the integer ceiling since |q| is nonnegative. -/
noncomputable def arcAngularBound (maxDev radius1 angleDiff : ℝ) : ℤ :=
  if maxDev < radius1 then
    ⌈|angleDiff / (2 * Real.arccos (1 - maxDev / radius1))|⌉
  else 1

/-- Total arc length (main.go line 296). -/
noncomputable def arcLen (radius1 angleDiff s3 e3 : ℝ) : ℝ :=
  |angleDiff| * Real.sqrt (radius1 ^ 2 + ((e3 - s3) / angleDiff) ^ 2)

/-- The minimum-line-length bound on the segment count (main.go lines
296-297). -/
noncomputable def arcLengthBound (minLen radius1 angleDiff s3 e3 : ℝ) : ℤ :=
  goTrunc (arcLen radius1 angleDiff s3 e3 / minLen)

/-- The segment count (main.go lines 290-301): the length bound replaces
the angular bound when it is smaller. -/
noncomputable def arcSteps (maxDev minLen radius1 angleDiff s3 e3 : ℝ) : ℤ :=
  let steps := arcAngularBound maxDev radius1 angleDiff
  let steps2 := arcLengthBound minLen radius1 angleDiff s3 e3
  if steps2 < steps then steps2 else steps

/-- The segment count approximateArc uses for a given machine and
statement. -/
noncomputable def arcStepsOf (vm : Machine) (stmt : Statement) : ℤ :=
  let f := arcFrame vm stmt
  arcSteps vm.maxArcDeviation vm.minArcLineLength (arcRadius1 vm stmt)
    (arcAngleDiff vm stmt) f.s3 f.e3

/-- The interpolation loop of approximateArc (main.go lines 303-309): with
move mode set to linear (line 233), emit one point per i = 0..steps, angle
and height interpolated linearly; the Go loop body runs (steps+1) times
when steps is nonnegative and not at all otherwise, modelled over
List.range (steps+1).toNat. -/
noncomputable def arcLoop (vm0 : Machine) (stmt : Statement) : Machine :=
  let f := arcFrame vm0 stmt
  let vm := { vm0 with state := { vm0.state with moveMode := moveModeLinear } }
  let radius1 := arcRadius1 vm0 stmt
  let theta1 := arcTheta1 vm0 stmt
  let angleDiff := arcAngleDiff vm0 stmt
  let steps := arcStepsOf vm0 stmt
  (List.range (steps + 1).toNat).foldl (fun (m : Machine) (i : ℕ) =>
    let angle := theta1 + angleDiff / (steps : ℝ) * (i : ℝ)
    arcAdd vm0 m (f.c1 + radius1 * Real.cos angle)
      (f.c2 + radius1 * Real.sin angle)
      (f.s3 + (f.e3 - f.s3) / (steps : ℝ) * (i : ℝ))) vm

/-- approximateArc (main.go lines 224-311).  The two panics (degenerate arc
and radius mismatch) are modelled as error results; the machine they carry
already has move mode linear, matching the mutation made before the checks
(line 233).  After the interpolation loop the exact resolved end point is
always emitted (line 310). -/
noncomputable def approximateArc (vm0 : Machine) (stmt : Statement) :
    Machine × Option String :=
  let f := arcFrame vm0 stmt
  let vm := { vm0 with state := { vm0.state with moveMode := moveModeLinear } }
  let radius1 := arcRadius1 vm0 stmt
  let radius2 := arcRadius2 vm0 stmt
  if radius1 = 0 ∨ radius2 = 0 then (vm, some "Invalid arc statement")
  else if 0.01 < |(radius2 - radius1) / radius1| then
    (vm, some "Radius deviation")
  else
    (arcAdd vm0 (arcLoop vm0 stmt) f.e1 f.e2 f.e3, none)

/-- The G-code dispatch loop of run (main.go lines 330-361). -/
noncomputable def runGs (vm : Machine) (gs : List ℝ) : Machine :=
  gs.foldl (fun m g =>
    if g = 0 then { m with state := { m.state with moveMode := moveModeRapid } }
    else if g = 1 then { m with state := { m.state with moveMode := moveModeLinear } }
    else if g = 2 then { m with state := { m.state with moveMode := moveModeCWArc } }
    else if g = 3 then { m with state := { m.state with moveMode := moveModeCCWArc } }
    else if g = 17 then { m with movePlane := planeXY }
    else if g = 18 then { m with movePlane := planeXZ }
    else if g = 19 then { m with movePlane := planeYZ }
    else if g = 20 then { m with metric := false }
    else if g = 21 then { m with metric := true }
    else if g = 80 then { m with state := { m.state with moveMode := moveModeNone } }
    else if g = 90 then { m with absoluteMove := true }
    else if g = 90.1 then { m with absoluteArc := true }
    else if g = 91 then { m with absoluteMove := false }
    else if g = 91.1 then { m with absoluteArc := false }
    else m) vm

/-- The M-code dispatch loop of run (main.go lines 364-386). -/
noncomputable def runMs (vm : Machine) (ms : List ℝ) : Machine :=
  ms.foldl (fun m c =>
    if c = 2 then { m with completed := true }
    else if c = 3 then
      { m with state := { m.state with spindleEnabled := true, spindleClockwise := true } }
    else if c = 4 then
      { m with state := { m.state with spindleEnabled := true, spindleClockwise := false } }
    else if c = 5 then { m with state := { m.state with spindleEnabled := false } }
    else if c = 7 then { m with state := { m.state with mistCoolant := true } }
    else if c = 8 then { m with state := { m.state with floodCoolant := true } }
    else if c = 9 then
      { m with state := { m.state with mistCoolant := false, floodCoolant := false } }
    else if c = 30 then { m with completed := true }
    else m) vm

/-- The F-code loop of run (main.go lines 389-397): unit-convert, reject a
nonpositive feedrate (returning the machine as mutated so far), else store
it. -/
noncomputable def runFs : Machine → List ℝ → Machine × Option String
  | vm, [] => (vm, none)
  | vm, f :: rest =>
      let f2 := if vm.metric then f else f * 25.4
      if f2 ≤ 0 then (vm, some "Feedrate must be greater than zero")
      else runFs { vm with state := { vm.state with feedrate := f2 } } rest

/-- The S-code loop of run (main.go lines 400-405). -/
noncomputable def runSs : Machine → List ℝ → Machine × Option String
  | vm, [] => (vm, none)
  | vm, s :: rest =>
      if s < 0 then (vm, some "Spindle speed must be greater than or equal to zero")
      else runSs { vm with state := { vm.state with spindleSpeed := s } } rest

/-- The motion dispatch at the end of run (main.go lines 407-417). -/
noncomputable def runMotion (vm : Machine) (stmt : Statement) :
    Machine × Option String :=
  if includes stmt ['X', 'Y', 'Z'] then
    if vm.state.moveMode = moveModeCWArc ∨ vm.state.moveMode = moveModeCCWArc then
      approximateArc vm stmt
    else if vm.state.moveMode = moveModeLinear ∨ vm.state.moveMode = moveModeRapid then
      (positioning vm stmt, none)
    else (vm, some "Move attempted without an active move mode")
  else (vm, none)

/-- run (main.go lines 317-420): a no-op once completed, otherwise G, M, F,
S dispatch in order followed by motion; the first error aborts the
statement, keeping the mutations made so far. -/
noncomputable def run (vm : Machine) (stmt : Statement) : Machine × Option String :=
  if vm.completed then (vm, none)
  else
    let vm2 := runMs (runGs vm (getAll stmt 'G')) (getAll stmt 'M')
    let fr := runFs vm2 (getAll stmt 'F')
    if fr.2 = none then
      let sr := runSs fr.1 (getAll stmt 'S')
      if sr.2 = none then runMotion sr.1 stmt else sr
    else fr

open scoped Classical in
/-- finalize (main.go lines 423-428): when the live state differs from the
state on top of the stack, reset move mode to none and push a Position
holding the final state; the pushed Position has the Go zero-value
coordinates (0, 0, 0). -/
noncomputable def finalize (vm : Machine) : Machine :=
  if vm.state = (curPos vm).state then vm
  else
    let vm2 := { vm with state := { vm.state with moveMode := moveModeNone } }
    addPos vm2 { state := vm2.state, x := 0, y := 0, z := 0 }

/-- A parsed program node: a word, or any other node kind (comments and
file markers), which the statement extraction skips. -/
inductive Node where
  | word : Word → Node
  | other : Node

/-- A program block (gcode.Block): a block-delete flag and the nodes of one
line. -/
structure Block where
  blockDelete : Bool
  nodes : List Node

/-- A parsed program (gcode.Document). -/
structure Document where
  blocks : List Block

/-- The statement extracted from a block (main.go lines 437-442): its word
nodes, in order. -/
def blockStatement (b : Block) : Statement :=
  b.nodes.filterMap (fun n => match n with
    | .word w => some w
    | .other => none)

/-- The block loop of Process (main.go lines 431-449): skip deleted blocks,
run each statement, stop at the first error (without finalizing), and
finalize after a full pass. -/
noncomputable def processBlocks : Machine → List Block → Machine × Option String
  | vm, [] => (finalize vm, none)
  | vm, b :: rest =>
      if b.blockDelete then processBlocks vm rest
      else
        let r := run vm (blockStatement b)
        if r.2 = none then processBlocks r.1 rest else r

/-- Process (main.go lines 431-449). -/
noncomputable def Process (vm : Machine) (doc : Document) : Machine × Option String :=
  processBlocks vm doc.blocks

/-- Init (main.go lines 453-462). -/
def Machine.Init (vm : Machine) (maxArcDeviation minArcLineLength tolerance : ℝ) :
    Machine :=
  { vm with
      posStack := vm.posStack ++ [defaultPosition]
      metric := true
      absoluteMove := true
      absoluteArc := false
      movePlane := planeXY
      maxArcDeviation := maxArcDeviation
      minArcLineLength := minArcLineLength
      tolerance := tolerance }

/-!  Concrete machines, statements and programs used to evaluate the
definitions at specific inputs. -/

/-- An imperial-mode machine whose current position is (0, 0, 1). -/
noncomputable def mImp : Machine :=
  { machineZero with
      metric := false
      absoluteMove := true
      absoluteArc := true
      posStack := [{ state := defaultState, x := 0, y := 0, z := 1 }] }

/-- A statement carrying K2 and I3. -/
def sIK : Statement :=
  [{ address := 'K', command := 2 }, { address := 'I', command := 3 }]

/-- A relative-mode machine (the zero machine has absoluteMove false) whose
current position is (3, 0, 0). -/
noncomputable def mRel : Machine :=
  { machineZero with
      posStack := [{ state := defaultState, x := 3, y := 0, z := 0 }] }

/-- A statement moving only the Y axis. -/
def sRel : Statement := [{ address := 'Y', command := 1 }]

/-- A freshly initialized machine with the suggested tolerances. -/
noncomputable def mInit : Machine :=
  Machine.Init machineZero 0.002 0.01 0.001

/-- mInit with a different tolerance and completion flag: it agrees with
mInit on the current position, the unit mode and both absolute/relative
flags. -/
noncomputable def mPure2 : Machine :=
  { mInit with
      tolerance := 5
      completed := true }

/-- A statement carrying X2. -/
def sPure : Statement := [{ address := 'X', command := 2 }]

/-- A machine on which an end-of-program marker has been processed. -/
noncomputable def mDone : Machine :=
  { machineZero with completed := true }

/-- A statement that would normally change state and move. -/
def sDone : Statement :=
  [{ address := 'G', command := 1 }, { address := 'X', command := 2 }]

/-- A machine whose live state (spindle on) differs from the state stored in
the top-of-stack position, at current position (1, 2, 3). -/
noncomputable def mFin : Machine :=
  { machineZero with
      state := { defaultState with spindleEnabled := true }
      posStack := [{ state := defaultState, x := 1, y := 2, z := 3 }] }

/-- The program G1 X1 M3 / M5: a linear move to x = 1 with the spindle
turned on, then spindle off with no trailing move. -/
def docM5 : Document :=
  { blocks :=
      [ { blockDelete := false,
          nodes := [Node.word { address := 'G', command := 1 },
            Node.word { address := 'X', command := 1 },
            Node.word { address := 'M', command := 3 }] },
        { blockDelete := false,
          nodes := [Node.word { address := 'M', command := 5 }] } ] }

/-- The state after G1 X1 M3: linear move mode, spindle on clockwise. -/
def stMove : State :=
  { defaultState with
      moveMode := moveModeLinear
      spindleEnabled := true
      spindleClockwise := true }

/-- The state finalize pushes for docM5: spindle off (still clockwise),
move mode reset to none. -/
def stFin : State :=
  { defaultState with
      moveMode := moveModeNone
      spindleEnabled := false
      spindleClockwise := true }

/-- A counter-clockwise quarter-circle arc setup: the machine sits at
(1, 0, 0), arc center mode is absolute so the omitted I/J/K place the
center at the origin, the plane is XY and maxArcDeviation is 1; the
minimum arc line length is the parameter. -/
noncomputable def mArc (minLen : ℝ) : Machine :=
  { state := { defaultState with moveMode := moveModeCCWArc }
    metric := true
    absoluteMove := true
    absoluteArc := true
    movePlane := planeXY
    completed := false
    maxArcDeviation := 1
    minArcLineLength := minLen
    tolerance := 0
    posStack := [{ state := defaultState, x := 1, y := 0, z := 0 }] }

/-- The arc statement X0 Y1: a quarter circle from (1,0) to (0,1) about the
origin. -/
def sArc : Statement :=
  [{ address := 'X', command := 0 }, { address := 'Y', command := 1 }]

/-- The same counter-clockwise quarter circle, but on an imperial-mode
machine: the machine sits at (25.4, 0, 0) (one inch from the center in
metric machine coordinates), the statement X0 Y1 resolves to the end point
(0, 25.4, 0), and both radii are 25.4. -/
noncomputable def mArcImp : Machine :=
  { state := { defaultState with moveMode := moveModeCCWArc }
    metric := false
    absoluteMove := true
    absoluteArc := true
    movePlane := planeXY
    completed := false
    maxArcDeviation := 1
    minArcLineLength := 1
    tolerance := 0
    posStack := [{ state := defaultState, x := 25.4, y := 0, z := 0 }] }

/-- Machine b's position stack extends machine a's: a's stack is an initial
segment of b's, so nothing of a's stack was removed or modified. -/
def StackExtends (a b : Machine) : Prop :=
  ∃ l, b.posStack = a.posStack ++ l

/-!  Lemmas about statement lookup. -/

/-- The error of the get loop is nil exactly when the address occurs once
in the remaining words (counting an occurrence already found). -/
lemma getLoop_snd_eq_none_iff (l : List Word) (a : Char) :
    ∀ (found : Bool) (res : ℝ),
      (getLoop l a found res).2 = none ↔
        (getAll l a).length + (if found then 1 else 0) = 1 := by
  induction l with
  | nil => intro found res; cases found <;> simp [getLoop, getAll]
  | cons m rest ih =>
      intro found res
      by_cases h : m.address = a
      · cases found
        · simp [getLoop, getAll, h, ih]
        · simp [getLoop, getAll, h, ih]
      · simp [getLoop, getAll, h, ih]

/-- get succeeds exactly when the address occurs exactly once. -/
lemma get_snd_eq_none_iff (stmt : Statement) (a : Char) :
    (get stmt a).2 = none ↔ (getAll stmt a).length = 1 := by
  simpa using getLoop_snd_eq_none_iff stmt a false 0

/-- Claim C1, code evaluation at the failing inputs: getDefault returns the
supplied default when the address is present exactly once, the zero value
(not the default) when the address is absent, and the first value when the
address is duplicated — the opposite of value-or-default. -/
theorem getDefault_inverted :
    getDefault [{ address := 'I', command := 5 }] 'I' 7 = 7 ∧
    getDefault ([] : Statement) 'I' 7 = 0 ∧
    getDefault [{ address := 'I', command := 5 },
      { address := 'I', command := 6 }] 'I' 7 = 5 :=
  ⟨rfl, rfl, rfl⟩

/-- Claim C3, counterexample: a statement in which X occurs twice (and no Y
or Z) is not counted as including X, although X occurs one or more times. -/
theorem includes_duplicate_axis_cex :
    includes [{ address := 'X', command := 1 }, { address := 'X', command := 2 }]
        ['X', 'Y', 'Z'] = false ∧
    (getAll [{ address := 'X', command := 1 }, { address := 'X', command := 2 }]
        'X').length = 2 :=
  ⟨rfl, rfl⟩

/-- Claim C3 as amended: includes returns true exactly when at least one of
the given addresses occurs exactly once in the statement; addresses that
occur zero times or more than once do not count. -/
theorem includes_iff_exactly_once (stmt : Statement) (addresses : List Char) :
    includes stmt addresses = true ↔
      ∃ a ∈ addresses, (getAll stmt a).length = 1 := by
  simp [includes, List.any_eq_true, Option.isNone_iff_eq_none, get_snd_eq_none_iff]

/-- Claim C5, code evaluation at the failing input: on an imperial machine
at (0, 0, 1) with statement K2 I3, calcPos resolves i to 0 (the getDefault
inversion discards the I token) and k to newZ * 25.4 = 25.4 (the K
conversion multiplies newZ, not the K value); the claim expects
i = 3 * 25.4 = 76.2 and k = 2 * 25.4 = 50.8. -/
theorem calcPos_imperial_ijk :
    calcPos mImp sIK = { x := 0, y := 0, z := 1, i := 0, j := 0, k := 25.4 } := by
  norm_num +decide [calcPos, resolveAxis, getDefault, get, getLoop, curPos, mImp, sIK,
    machineZero, defaultState]

/-- Claim C9: the six components of calcPos depend only on the statement,
the top-of-stack position, the unit mode and the two absolute/relative mode
flags; two machines agreeing on those agree on calcPos.  In this embedding
calcPos returns a value and cannot mutate the machine, matching the Go
function, which only reads the receiver. -/
theorem calcPos_pure (m1 m2 : Machine) (stmt : Statement)
    (hpos : curPos m1 = curPos m2) (hmet : m1.metric = m2.metric)
    (hmove : m1.absoluteMove = m2.absoluteMove)
    (harc : m1.absoluteArc = m2.absoluteArc) :
    calcPos m1 stmt = calcPos m2 stmt := by
  simp only [calcPos, resolveAxis, hpos, hmet, hmove, harc]

/-- Claim C9, witness: mInit and mPure2 differ (tolerance, completed) but
agree on the inputs named by the claim, so calcPos agrees on them. -/
theorem calcPos_pure_witness : calcPos mInit sPure = calcPos mPure2 sPure :=
  calcPos_pure mInit mPure2 sPure rfl rfl rfl rfl

/-- Claim C10: in relative move mode an axis that is absent from the
statement resolves to twice its current value (the current value is taken
as the default and then added again), so the appended position moves on an
omitted axis whenever its current coordinate is nonzero. -/
theorem calcPos_relative_omitted_axis_doubles (vm : Machine) (stmt : Statement)
    (hrel : vm.absoluteMove = false) (habs : getAll stmt 'X' = []) :
    (calcPos vm stmt).x = 2 * (curPos vm).x ∧
    ((positioning vm stmt).posStack.getLastD defaultPosition).x = 2 * (curPos vm).x ∧
    ((curPos vm).x ≠ 0 → (calcPos vm stmt).x ≠ (curPos vm).x) := by
  have hget : ¬ ((get stmt 'X').2 = none) := by
    rw [get_snd_eq_none_iff, habs]; simp
  have hx : (calcPos vm stmt).x = 2 * (curPos vm).x := by
    simp [calcPos, resolveAxis, hget, hrel, two_mul]
  refine ⟨hx, ?_, fun h0 heq => ?_⟩
  · simp [positioning, addPos, List.getLastD_concat, hx]
  · rw [hx] at heq
    exact h0 (by linarith)

/-- Claim C10, witness: on mRel (relative mode, current x = 3) a statement
with no X word resolves x to 6, not 3. -/
theorem calcPos_relative_omitted_axis_doubles_witness :
    (calcPos mRel sRel).x = 6 ∧ (calcPos mRel sRel).x ≠ (curPos mRel).x := by
  have h := calcPos_relative_omitted_axis_doubles mRel sRel rfl rfl
  have hcur : (curPos mRel).x = 3 := by
    norm_num [curPos, mRel, machineZero]
  exact ⟨by rw [h.1, hcur]; norm_num, h.2.2 (by rw [hcur]; norm_num)⟩

/-!  Stack lemmas: every operation leaves the position stack unchanged or
appends to it. -/

lemma stackExtends_refl (m : Machine) : StackExtends m m := ⟨[], by simp⟩

lemma stackExtends_trans {a b c : Machine}
    (h1 : StackExtends a b) (h2 : StackExtends b c) : StackExtends a c := by
  obtain ⟨l1, e1⟩ := h1
  obtain ⟨l2, e2⟩ := h2
  exact ⟨l1 ++ l2, by rw [e2, e1, List.append_assoc]⟩

lemma stackExtends_of_posStack_eq {a b c : Machine} (h : a.posStack = b.posStack)
    (h2 : StackExtends b c) : StackExtends a c := by
  obtain ⟨l, e⟩ := h2
  exact ⟨l, by rw [e, h]⟩

lemma positioning_posStack (vm : Machine) (stmt : Statement) :
    (positioning vm stmt).posStack = vm.posStack ++
      [{ state := vm.state
         x := (calcPos vm stmt).x
         y := (calcPos vm stmt).y
         z := (calcPos vm stmt).z }] := rfl

lemma foldl_posStack_const {α : Type} (f : Machine → α → Machine)
    (h : ∀ m a, (f m a).posStack = m.posStack) :
    ∀ (l : List α) (m : Machine), (List.foldl f m l).posStack = m.posStack := by
  intro l
  induction l with
  | nil => intro m; rfl
  | cons a rest ih => intro m; rw [List.foldl_cons, ih, h]

lemma foldl_stackExtends {α : Type} (f : Machine → α → Machine)
    (h : ∀ m a, StackExtends m (f m a)) :
    ∀ (l : List α) (m : Machine), StackExtends m (List.foldl f m l) := by
  intro l
  induction l with
  | nil => intro m; exact stackExtends_refl m
  | cons a rest ih =>
      intro m
      rw [List.foldl_cons]
      exact stackExtends_trans (h m a) (ih (f m a))

lemma foldl_posStack_length {α : Type} (f : Machine → α → Machine)
    (h : ∀ m a, (f m a).posStack.length = m.posStack.length + 1) :
    ∀ (l : List α) (m : Machine),
      (List.foldl f m l).posStack.length = m.posStack.length + l.length := by
  intro l
  induction l with
  | nil => intro m; simp
  | cons a rest ih =>
      intro m
      rw [List.foldl_cons, ih, h, List.length_cons]
      omega

lemma ite_posStack {c : Prop} [Decidable c] {a b : Machine} {s : List Position}
    (ha : a.posStack = s) (hb : b.posStack = s) :
    (if c then a else b).posStack = s := by
  split <;> assumption

lemma runGs_posStack (vm : Machine) (gs : List ℝ) :
    (runGs vm gs).posStack = vm.posStack := by
  unfold runGs
  refine foldl_posStack_const _ (fun m g => ?_) gs vm
  repeat' apply ite_posStack
  all_goals rfl

lemma runMs_posStack (vm : Machine) (ms : List ℝ) :
    (runMs vm ms).posStack = vm.posStack := by
  unfold runMs
  refine foldl_posStack_const _ (fun m c => ?_) ms vm
  repeat' apply ite_posStack
  all_goals rfl

lemma runFs_cons (vm : Machine) (f : ℝ) (rest : List ℝ) :
    runFs vm (f :: rest) =
      (if (if vm.metric then f else f * 25.4) ≤ 0 then
        (vm, some "Feedrate must be greater than zero")
      else
        runFs { vm with state :=
          { vm.state with feedrate := if vm.metric then f else f * 25.4 } } rest) := rfl

lemma runSs_cons (vm : Machine) (s : ℝ) (rest : List ℝ) :
    runSs vm (s :: rest) =
      (if s < 0 then (vm, some "Spindle speed must be greater than or equal to zero")
      else runSs { vm with state := { vm.state with spindleSpeed := s } } rest) := rfl

lemma runFs_posStack (l : List ℝ) : ∀ vm : Machine,
    (runFs vm l).1.posStack = vm.posStack := by
  induction l with
  | nil => intro vm; rfl
  | cons f rest ih =>
      intro vm
      rw [runFs_cons]
      split_ifs <;> simp [ih]

lemma runSs_posStack (l : List ℝ) : ∀ vm : Machine,
    (runSs vm l).1.posStack = vm.posStack := by
  induction l with
  | nil => intro vm; rfl
  | cons s rest ih =>
      intro vm
      rw [runSs_cons]
      split_ifs <;> simp [ih]

lemma arcAdd_stackExtends (c m : Machine) (x y z : ℝ) :
    StackExtends m (arcAdd c m x y z) := by
  unfold arcAdd
  split_ifs <;> first
    | exact ⟨_, positioning_posStack _ _⟩
    | exact stackExtends_refl m

lemma arcLoop_stackExtends (vm : Machine) (stmt : Statement) :
    StackExtends vm (arcLoop vm stmt) := by
  unfold arcLoop
  dsimp only
  refine stackExtends_of_posStack_eq
    (b := { vm with state := { vm.state with moveMode := moveModeLinear } }) rfl ?_
  exact foldl_stackExtends _ (fun m i => arcAdd_stackExtends _ _ _ _ _) _ _

lemma approximateArc_stackExtends (vm : Machine) (stmt : Statement) :
    StackExtends vm (approximateArc vm stmt).1 := by
  unfold approximateArc
  dsimp only
  split_ifs
  · exact ⟨[], by simp⟩
  · exact ⟨[], by simp⟩
  · exact stackExtends_trans (arcLoop_stackExtends vm stmt)
      (arcAdd_stackExtends _ _ _ _ _)

lemma runMotion_stackExtends (vm : Machine) (stmt : Statement) :
    StackExtends vm (runMotion vm stmt).1 := by
  unfold runMotion
  split_ifs
  · exact approximateArc_stackExtends vm stmt
  · exact ⟨_, positioning_posStack vm stmt⟩
  · exact stackExtends_refl vm
  · exact stackExtends_refl vm

lemma run_stackExtends (vm : Machine) (stmt : Statement) :
    StackExtends vm (run vm stmt).1 := by
  unfold run
  dsimp only
  split_ifs with hc h1 h2
  · exact stackExtends_refl vm
  · refine stackExtends_of_posStack_eq ?_
      (runMotion_stackExtends _ stmt)
    rw [runSs_posStack, runFs_posStack, runMs_posStack, runGs_posStack]
  · refine ⟨[], ?_⟩
    rw [runSs_posStack, runFs_posStack, runMs_posStack, runGs_posStack]
    simp
  · refine ⟨[], ?_⟩
    rw [runFs_posStack, runMs_posStack, runGs_posStack]
    simp

lemma finalize_stackExtends (vm : Machine) : StackExtends vm (finalize vm) := by
  unfold finalize
  split_ifs
  · exact stackExtends_refl vm
  · exact ⟨_, rfl⟩

lemma processBlocks_cons (vm : Machine) (b : Block) (rest : List Block) :
    processBlocks vm (b :: rest) =
      (if b.blockDelete then processBlocks vm rest
       else
        if (run vm (blockStatement b)).2 = none then
          processBlocks (run vm (blockStatement b)).1 rest
        else run vm (blockStatement b)) := rfl

lemma processBlocks_stackExtends (bs : List Block) : ∀ vm : Machine,
    StackExtends vm (processBlocks vm bs).1 := by
  induction bs with
  | nil => intro vm; exact finalize_stackExtends vm
  | cons b rest ih =>
      intro vm
      rw [processBlocks_cons]
      split_ifs with hd he
      · exact ih vm
      · exact stackExtends_trans (run_stackExtends vm (blockStatement b)) (ih _)
      · exact run_stackExtends vm (blockStatement b)


/-- Claim C7: once the completed flag is set, run is a silent no-op: it
returns no error and the machine, including its state and position stack,
is returned unchanged whatever the statement contains. -/
theorem run_completed_silent_noop (vm : Machine) (stmt : Statement)
    (h : vm.completed = true) : run vm stmt = (vm, none) := by
  simp [run, h]

/-- Claim C7, witness: on a completed machine even a statement carrying G1
and X2 is ignored. -/
theorem run_completed_silent_noop_witness : run mDone sDone = (mDone, none) :=
  run_completed_silent_noop mDone sDone rfl

/-- Claim C2 as amended: when the live state differs from the top-of-stack
state, finalize resets move mode to none and pushes exactly one Position
carrying the final state, but with the Go zero-value coordinates (0, 0, 0)
rather than the current coordinates. -/
theorem finalize_pushes_final_state_at_origin (vm : Machine)
    (h : vm.state ≠ (curPos vm).state) :
    (finalize vm).posStack =
      vm.posStack ++
        [{ state := { vm.state with moveMode := moveModeNone }, x := 0, y := 0, z := 0 }] ∧
    (finalize vm).state = { vm.state with moveMode := moveModeNone } := by
  simp [finalize, h, addPos]

/-- Claim C2, witness: a machine at (1, 2, 3) whose spindle was switched on
without a following move gets a final stack entry at the origin carrying the
spindle-on state. -/
theorem finalize_pushes_final_state_at_origin_witness :
    (finalize mFin).posStack =
      [{ state := defaultState, x := 1, y := 2, z := 3 },
       { state := { defaultState with spindleEnabled := true }, x := 0, y := 0, z := 0 }] := by
  have h := finalize_pushes_final_state_at_origin mFin (by
    norm_num +decide [mFin, machineZero, curPos, defaultState, State.mk.injEq])
  rw [h.1]
  norm_num +decide [mFin, machineZero, curPos, defaultState, moveModeNone]

/-- Claim C2, counterexample: the program G1 X1 M3 / M5 ends with a state
change and no trailing move; finalize appends an entry with spindle
disabled, but at (0, 0, 0) instead of the prior coordinates (1, 0, 0): the
final entry and the prior entry differ in x. -/
theorem process_m5_final_entry_at_origin :
    (Process mInit docM5).2 = none ∧
    (Process mInit docM5).1.posStack =
      [defaultPosition,
       { state := stMove, x := 1, y := 0, z := 0 },
       { state := stFin, x := 0, y := 0, z := 0 }] ∧
    ((Process mInit docM5).1.posStack.getLastD defaultPosition).x ≠
      ({ state := stMove, x := 1, y := 0, z := 0 } : Position).x := by
  have h :
      (Process mInit docM5).2 = none ∧
      (Process mInit docM5).1.posStack =
        [defaultPosition,
         { state := stMove, x := 1, y := 0, z := 0 },
         { state := stFin, x := 0, y := 0, z := 0 }] := by
    norm_num +decide [Process, processBlocks, run, runGs, runMs, runFs, runSs, runMotion,
      includes, getAll, get, getLoop, positioning, calcPos, resolveAxis, getDefault,
      addPos, curPos, finalize, Machine.Init, machineZero, defaultPosition, defaultState,
      mInit, docM5, blockStatement, stMove, stFin, moveModeNone, moveModeRapid,
      moveModeLinear, moveModeCWArc, moveModeCCWArc, planeXY,
      List.foldl_cons, List.foldl_nil, List.filterMap_cons, List.filterMap_nil,
      State.mk.injEq, Position.mk.injEq]
  refine ⟨h.1, h.2, ?_⟩
  rw [h.2]
  norm_num [List.getLastD]

/-- Claim C8: run only ever extends the position stack, and for every
program the stack after Init and Process (error or not) still starts with
the synthetic zero position pushed at initialization and has length at
least 1. -/
theorem posStack_append_only :
    (∀ (vm : Machine) (stmt : Statement), StackExtends vm (run vm stmt).1) ∧
    (∀ (maxDev minLen tol : ℝ) (doc : Document),
      1 ≤ (Process (Machine.Init machineZero maxDev minLen tol) doc).1.posStack.length ∧
      (Process (Machine.Init machineZero maxDev minLen tol) doc).1.posStack.head? =
        some defaultPosition ∧
      StackExtends (Machine.Init machineZero maxDev minLen tol)
        (Process (Machine.Init machineZero maxDev minLen tol) doc).1) := by
  refine ⟨run_stackExtends, fun maxDev minLen tol doc => ?_⟩
  obtain ⟨l, hl⟩ :=
    processBlocks_stackExtends doc.blocks (Machine.Init machineZero maxDev minLen tol)
  have hinit : (Machine.Init machineZero maxDev minLen tol).posStack =
      [defaultPosition] := rfl
  have hl2 : (Process (Machine.Init machineZero maxDev minLen tol) doc).1.posStack =
      [defaultPosition] ++ l := by
    rw [Process, hl, hinit]
  refine ⟨?_, ?_, ⟨l, hl⟩⟩
  · rw [hl2]; simp
  · rw [hl2]; rfl

/-!  Arc geometry lemmas: the quarter-circle example and the claims about
the arc approximator. -/

lemma atan2_zero_one : atan2 0 1 = 0 := by
  have h : ({ re := 1, im := 0 } : ℂ) = 1 := by
    apply Complex.ext <;> simp
  rw [atan2, h, Complex.arg_one]

lemma atan2_one_zero : atan2 1 0 = Real.pi / 2 := by
  have h : ({ re := 0, im := 1 } : ℂ) = Complex.I := by
    apply Complex.ext <;> simp
  rw [atan2, h, Complex.arg_I]

lemma calcPos_mArc (minLen : ℝ) :
    calcPos (mArc minLen) sArc = { x := 0, y := 1, z := 0, i := 0, j := 0, k := 0 } := by
  norm_num +decide [calcPos, resolveAxis, getDefault, get, getLoop, curPos, mArc, sArc,
    defaultState]

lemma arcFrame_mArc (minLen : ℝ) :
    arcFrame (mArc minLen) sArc =
      { s1 := 1, s2 := 0, s3 := 0, e1 := 0, e2 := 1, e3 := 0, c1 := 0, c2 := 0 } := by
  rw [arcFrame, calcPos_mArc]
  norm_num [mArc, curPos, planeXY]

lemma arcRadius1_mArc (minLen : ℝ) : arcRadius1 (mArc minLen) sArc = 1 := by
  rw [arcRadius1, arcFrame_mArc]
  norm_num

lemma arcRadius2_mArc (minLen : ℝ) : arcRadius2 (mArc minLen) sArc = 1 := by
  rw [arcRadius2, arcFrame_mArc]
  norm_num

lemma arcTheta1_mArc (minLen : ℝ) : arcTheta1 (mArc minLen) sArc = 0 := by
  rw [arcTheta1, arcFrame_mArc]
  norm_num [atan2_zero_one]

lemma arcTheta2_mArc (minLen : ℝ) : arcTheta2 (mArc minLen) sArc = Real.pi / 2 := by
  rw [arcTheta2, arcFrame_mArc]
  norm_num [atan2_one_zero]

lemma arcClockwise_mArc (minLen : ℝ) : arcClockwise (mArc minLen) = false := rfl

lemma arcP_sArc : arcP sArc = 0 := rfl

lemma arcAngleDiff_mArc (minLen : ℝ) :
    arcAngleDiff (mArc minLen) sArc = Real.pi / 2 := by
  have hπ : 0 < Real.pi / 2 := by positivity
  rw [arcAngleDiff, arcTheta2_mArc, arcTheta1_mArc, arcClockwise_mArc, arcP_sArc]
  norm_num [not_lt.mpr hπ.le]

lemma arcAngularBound_one_one : arcAngularBound 1 1 (Real.pi / 2) = 1 := by
  rw [arcAngularBound, if_neg (lt_irrefl 1)]

lemma arcLen_quarter : arcLen 1 (Real.pi / 2) 0 0 = Real.pi / 2 := by
  have h1 : |Real.pi / 2| = Real.pi / 2 := abs_of_pos (by positivity)
  rw [arcLen, h1]
  norm_num

lemma floor_pi_div_two : ⌊Real.pi / 2⌋ = 1 := by
  rw [Int.floor_eq_iff]
  constructor
  · push_cast
    linarith [Real.pi_gt_three]
  · push_cast
    linarith [Real.pi_lt_d2]

lemma floor_pi_div_four : ⌊Real.pi / 4⌋ = 0 := by
  rw [Int.floor_eq_iff]
  constructor
  · push_cast
    positivity
  · push_cast
    linarith [Real.pi_lt_d2]

lemma arcLengthBound_minLen_one : arcLengthBound 1 1 (Real.pi / 2) 0 0 = 1 := by
  rw [arcLengthBound, arcLen_quarter, goTrunc, if_pos (by positivity)]
  norm_num [floor_pi_div_two]

lemma arcLengthBound_minLen_two : arcLengthBound 2 1 (Real.pi / 2) 0 0 = 0 := by
  rw [arcLengthBound, arcLen_quarter, goTrunc, if_pos (by positivity)]
  have h : Real.pi / 2 / 2 = Real.pi / 4 := by ring
  rw [h, floor_pi_div_four]

lemma arcStepsOf_mArc (minLen : ℝ) :
    arcStepsOf (mArc minLen) sArc = arcSteps 1 minLen 1 (Real.pi / 2) 0 0 := by
  rw [arcStepsOf, arcFrame_mArc, arcRadius1_mArc, arcAngleDiff_mArc]
  norm_num [mArc]

lemma arcStepsOf_mArc_one : arcStepsOf (mArc 1) sArc = 1 := by
  rw [arcStepsOf_mArc]
  simp [arcSteps, arcAngularBound_one_one, arcLengthBound_minLen_one]

lemma arcStepsOf_mArc_two : arcStepsOf (mArc 2) sArc = 0 := by
  rw [arcStepsOf_mArc]
  simp [arcSteps, arcAngularBound_one_one, arcLengthBound_minLen_two]

lemma approximateArc_of_checks (vm : Machine) (stmt : Statement)
    (h1 : ¬(arcRadius1 vm stmt = 0 ∨ arcRadius2 vm stmt = 0))
    (h3 : ¬(0.01 < |(arcRadius2 vm stmt - arcRadius1 vm stmt) / arcRadius1 vm stmt|)) :
    approximateArc vm stmt =
      (arcAdd vm (arcLoop vm stmt) (arcFrame vm stmt).e1 (arcFrame vm stmt).e2
        (arcFrame vm stmt).e3, none) := by
  rw [approximateArc]
  dsimp only
  rw [if_neg h1, if_neg h3]

lemma ite_min (a b : ℤ) : (if b < a then b else a) = min a b := by
  rw [min_def]
  split_ifs <;> omega

/-- Claim C4 as amended: the segment count is the minimum of the
angular-deviation bound (which falls back to 1 when maxArcDeviation is not
below the radius) and the arc-length bound; it is at least 1 whenever the
arc is at least one minimum line length long (and the sweep is nonzero),
but it is not at least 1 in general: it is 0 for arcs shorter than
minArcLineLength. -/
theorem arc_segment_count (vm : Machine) (stmt : Statement) :
    arcStepsOf vm stmt =
      min (arcAngularBound vm.maxArcDeviation (arcRadius1 vm stmt) (arcAngleDiff vm stmt))
        (arcLengthBound vm.minArcLineLength (arcRadius1 vm stmt) (arcAngleDiff vm stmt)
          (arcFrame vm stmt).s3 (arcFrame vm stmt).e3) ∧
    (0 < vm.maxArcDeviation → 0 < vm.minArcLineLength → 0 < arcRadius1 vm stmt →
      arcAngleDiff vm stmt ≠ 0 →
      vm.minArcLineLength ≤ arcLen (arcRadius1 vm stmt) (arcAngleDiff vm stmt)
        (arcFrame vm stmt).s3 (arcFrame vm stmt).e3 →
      1 ≤ arcStepsOf vm stmt) := by
  have hmin : arcStepsOf vm stmt =
      min (arcAngularBound vm.maxArcDeviation (arcRadius1 vm stmt) (arcAngleDiff vm stmt))
        (arcLengthBound vm.minArcLineLength (arcRadius1 vm stmt) (arcAngleDiff vm stmt)
          (arcFrame vm stmt).s3 (arcFrame vm stmt).e3) := by
    rw [arcStepsOf, arcSteps]
    exact ite_min _ _
  refine ⟨hmin, fun hdev hminLen hr ha hlen => ?_⟩
  rw [hmin, le_min_iff]
  constructor
  · by_cases hc : vm.maxArcDeviation < arcRadius1 vm stmt
    · rw [arcAngularBound, if_pos hc]
      have hcos : 0 < Real.arccos (1 - vm.maxArcDeviation / arcRadius1 vm stmt) := by
        rw [Real.arccos_pos]
        have : 0 < vm.maxArcDeviation / arcRadius1 vm stmt := div_pos hdev hr
        linarith
      have hq : arcAngleDiff vm stmt /
          (2 * Real.arccos (1 - vm.maxArcDeviation / arcRadius1 vm stmt)) ≠ 0 :=
        div_ne_zero ha (by positivity)
      have habs : 0 < |arcAngleDiff vm stmt /
          (2 * Real.arccos (1 - vm.maxArcDeviation / arcRadius1 vm stmt))| :=
        abs_pos.mpr hq
      have := Int.ceil_pos.mpr habs
      omega
    · rw [arcAngularBound, if_neg hc]
  · have hq : (1 : ℝ) ≤ arcLen (arcRadius1 vm stmt) (arcAngleDiff vm stmt)
        (arcFrame vm stmt).s3 (arcFrame vm stmt).e3 / vm.minArcLineLength :=
      (one_le_div hminLen).mpr hlen
    rw [arcLengthBound, goTrunc, if_pos (by linarith)]
    exact Int.le_floor.mpr (by exact_mod_cast hq)

/-- Claim C4, witness: the quarter circle of radius 1 with minArcLineLength
1 satisfies the length hypothesis and gets at least one segment. -/
theorem arc_segment_count_witness : 1 ≤ arcStepsOf (mArc 1) sArc := by
  refine (arc_segment_count (mArc 1) sArc).2 ?_ ?_ ?_ ?_ ?_
  · norm_num [mArc]
  · norm_num [mArc]
  · rw [arcRadius1_mArc]; norm_num
  · rw [arcAngleDiff_mArc]; positivity
  · rw [arcRadius1_mArc, arcAngleDiff_mArc, arcFrame_mArc]
    show (mArc 1).minArcLineLength ≤ arcLen 1 (Real.pi / 2) 0 0
    rw [arcLen_quarter]
    show (1 : ℝ) ≤ Real.pi / 2
    linarith [Real.pi_gt_three]

/-- Claim C4, counterexample: the quarter circle of radius 1 (radius checks
pass: both radii are 1, and approximateArc reports no error) with
minArcLineLength 2 gets 0 segments, fewer than 1. -/
theorem arc_segment_count_zero_cex :
    arcRadius1 (mArc 2) sArc = 1 ∧ arcRadius2 (mArc 2) sArc = 1 ∧
    (approximateArc (mArc 2) sArc).2 = none ∧
    arcStepsOf (mArc 2) sArc = 0 := by
  refine ⟨arcRadius1_mArc 2, arcRadius2_mArc 2, ?_, arcStepsOf_mArc_two⟩
  rw [approximateArc_of_checks (mArc 2) sArc ?_ ?_]
  · rw [arcRadius1_mArc, arcRadius2_mArc]
    norm_num
  · rw [arcRadius1_mArc, arcRadius2_mArc]
    norm_num

lemma plane_cases_of_radius_ne_zero (vm : Machine) (stmt : Statement)
    (h : arcRadius1 vm stmt ≠ 0) :
    vm.movePlane = planeXY ∨ vm.movePlane = planeXZ ∨ vm.movePlane = planeYZ := by
  by_contra hc
  push_neg at hc
  obtain ⟨h1, h2, h3⟩ := hc
  apply h
  norm_num [arcRadius1, arcFrame, h1, h2, h3]

lemma arcAdd_length (c m : Machine) (x y z : ℝ)
    (h : c.movePlane = planeXY ∨ c.movePlane = planeXZ ∨ c.movePlane = planeYZ) :
    (arcAdd c m x y z).posStack.length = m.posStack.length + 1 := by
  rcases h with h | h | h <;>
    simp [arcAdd, h, planeXY, planeXZ, planeYZ, positioning_posStack]

lemma arcAdd_state (c m : Machine) (x y z : ℝ) :
    (arcAdd c m x y z).state = m.state := by
  unfold arcAdd
  split_ifs <;> rfl

lemma arcAdd_metric (c m : Machine) (x y z : ℝ) :
    (arcAdd c m x y z).metric = m.metric := by
  unfold arcAdd
  split_ifs <;> rfl

lemma arcAdd_absoluteMove (c m : Machine) (x y z : ℝ) :
    (arcAdd c m x y z).absoluteMove = m.absoluteMove := by
  unfold arcAdd
  split_ifs <;> rfl

lemma foldl_pres {α β : Type} (f : Machine → α → Machine) (g : Machine → β)
    (h : ∀ m a, g (f m a) = g m) :
    ∀ (l : List α) (m : Machine), g (List.foldl f m l) = g m := by
  intro l
  induction l with
  | nil => intro m; rfl
  | cons a rest ih => intro m; rw [List.foldl_cons, ih, h]

lemma arcLoop_length (vm : Machine) (stmt : Statement)
    (h : vm.movePlane = planeXY ∨ vm.movePlane = planeXZ ∨ vm.movePlane = planeYZ) :
    (arcLoop vm stmt).posStack.length =
      vm.posStack.length + (arcStepsOf vm stmt + 1).toNat := by
  unfold arcLoop
  dsimp only
  rw [foldl_posStack_length _ (fun m i => arcAdd_length vm m _ _ _ h) _ _,
    List.length_range]

lemma arcLoop_state (vm : Machine) (stmt : Statement) :
    (arcLoop vm stmt).state = { vm.state with moveMode := moveModeLinear } := by
  unfold arcLoop
  dsimp only
  rw [foldl_pres _ Machine.state (fun m i => arcAdd_state vm m _ _ _) _ _]

lemma arcLoop_metric (vm : Machine) (stmt : Statement) :
    (arcLoop vm stmt).metric = vm.metric := by
  unfold arcLoop
  dsimp only
  rw [foldl_pres _ Machine.metric (fun m i => arcAdd_metric vm m _ _ _) _ _]

lemma arcLoop_absoluteMove (vm : Machine) (stmt : Statement) :
    (arcLoop vm stmt).absoluteMove = vm.absoluteMove := by
  unfold arcLoop
  dsimp only
  rw [foldl_pres _ Machine.absoluteMove (fun m i => arcAdd_absoluteMove vm m _ _ _) _ _]

lemma arcAdd_getLast_XY (c m : Machine) (x y z : ℝ)
    (hp : c.movePlane = planeXY) (hmet : m.metric = true)
    (hmov : m.absoluteMove = true) :
    (arcAdd c m x y z).posStack.getLastD defaultPosition =
      { state := m.state, x := x, y := y, z := z } := by
  rw [arcAdd, if_pos hp, positioning_posStack, List.getLastD_concat]
  norm_num +decide [calcPos, resolveAxis, get, getLoop, getDefault, hmet, hmov,
    Position.mk.injEq]

lemma arcFrame_ends_XY (vm : Machine) (stmt : Statement)
    (h : vm.movePlane = planeXY) :
    (arcFrame vm stmt).e1 = (calcPos vm stmt).x ∧
    (arcFrame vm stmt).e2 = (calcPos vm stmt).y ∧
    (arcFrame vm stmt).e3 = (calcPos vm stmt).z := by
  norm_num [arcFrame, h]

lemma arcAdd_getLast_XZ (c m : Machine) (x y z : ℝ)
    (hp : c.movePlane = planeXZ) (hmet : m.metric = true)
    (hmov : m.absoluteMove = true) :
    (arcAdd c m x y z).posStack.getLastD defaultPosition =
      { state := m.state, x := y, y := z, z := x } := by
  rw [arcAdd, if_neg (by rw [hp]; decide), if_pos hp, positioning_posStack,
    List.getLastD_concat]
  norm_num +decide [calcPos, resolveAxis, get, getLoop, getDefault, hmet, hmov,
    Position.mk.injEq]

lemma arcAdd_getLast_YZ (c m : Machine) (x y z : ℝ)
    (hp : c.movePlane = planeYZ) (hmet : m.metric = true)
    (hmov : m.absoluteMove = true) :
    (arcAdd c m x y z).posStack.getLastD defaultPosition =
      { state := m.state, x := z, y := x, z := y } := by
  rw [arcAdd, if_neg (by rw [hp]; decide), if_neg (by rw [hp]; decide), if_pos hp,
    positioning_posStack, List.getLastD_concat]
  norm_num +decide [calcPos, resolveAxis, get, getLoop, getDefault, hmet, hmov,
    Position.mk.injEq]

lemma arcFrame_ends_XZ (vm : Machine) (stmt : Statement)
    (h : vm.movePlane = planeXZ) :
    (arcFrame vm stmt).e1 = (calcPos vm stmt).z ∧
    (arcFrame vm stmt).e2 = (calcPos vm stmt).x ∧
    (arcFrame vm stmt).e3 = (calcPos vm stmt).y := by
  norm_num [arcFrame, h, planeXY, planeXZ]

lemma arcFrame_ends_YZ (vm : Machine) (stmt : Statement)
    (h : vm.movePlane = planeYZ) :
    (arcFrame vm stmt).e1 = (calcPos vm stmt).y ∧
    (arcFrame vm stmt).e2 = (calcPos vm stmt).z ∧
    (arcFrame vm stmt).e3 = (calcPos vm stmt).x := by
  norm_num [arcFrame, h, planeXY, planeXZ, planeYZ]

lemma arcAdd_getLast_XY_imperial (c m : Machine) (x y z : ℝ)
    (hp : c.movePlane = planeXY) (hmet : m.metric = false)
    (hmov : m.absoluteMove = true) :
    (arcAdd c m x y z).posStack.getLastD defaultPosition =
      { state := m.state, x := x * 25.4, y := y * 25.4, z := z * 25.4 } := by
  rw [arcAdd, if_pos hp, positioning_posStack, List.getLastD_concat]
  norm_num +decide [calcPos, resolveAxis, get, getLoop, getDefault, hmet, hmov,
    Position.mk.injEq]

lemma calcPos_mArcImp :
    calcPos mArcImp sArc = { x := 0, y := 25.4, z := 0, i := 0, j := 0, k := 0 } := by
  norm_num +decide [calcPos, resolveAxis, getDefault, get, getLoop, curPos, mArcImp,
    sArc, defaultState]

lemma arcFrame_mArcImp :
    arcFrame mArcImp sArc =
      { s1 := 25.4, s2 := 0, s3 := 0, e1 := 0, e2 := 25.4, e3 := 0,
        c1 := 0, c2 := 0 } := by
  rw [arcFrame, calcPos_mArcImp]
  norm_num [mArcImp, curPos, planeXY]

lemma arcRadius1_mArcImp : arcRadius1 mArcImp sArc = 25.4 := by
  rw [arcRadius1, arcFrame_mArcImp]
  dsimp only
  rw [show ((0:ℝ) - 25.4) ^ 2 + ((0:ℝ) - 0) ^ 2 = 25.4 ^ 2 from by norm_num,
    Real.sqrt_sq (by norm_num : (0:ℝ) ≤ 25.4)]

lemma arcRadius2_mArcImp : arcRadius2 mArcImp sArc = 25.4 := by
  rw [arcRadius2, arcFrame_mArcImp]
  dsimp only
  rw [show ((0:ℝ) - 0) ^ 2 + ((0:ℝ) - 25.4) ^ 2 = 25.4 ^ 2 from by norm_num,
    Real.sqrt_sq (by norm_num : (0:ℝ) ≤ 25.4)]

/-- Claim C6 as amended: for every arc statement passing the radius checks,
in any of the three planes, the approximator appends steps+1 interpolated
points (the loop runs for i = 0..steps, so the start point is re-emitted at
i = 0) followed by one final non-interpolated point, so (steps+1)+1
positions are appended in total; under metric units and absolute move mode
the last appended position is exactly the resolved end position with the
linear-move state snapshot (in imperial mode the final point is
unit-converted a second time by positioning, so the equality fails there,
as the counterexample shows). -/
theorem arc_emits_start_interpolations_then_exact_end (vm : Machine) (stmt : Statement)
    (h1 : arcRadius1 vm stmt ≠ 0) (h2 : arcRadius2 vm stmt ≠ 0)
    (h3 : |(arcRadius2 vm stmt - arcRadius1 vm stmt) / arcRadius1 vm stmt| ≤ 0.01) :
    (approximateArc vm stmt).2 = none ∧
    (approximateArc vm stmt).1.posStack.length =
      vm.posStack.length + ((arcStepsOf vm stmt + 1).toNat + 1) ∧
    (vm.metric = true → vm.absoluteMove = true →
      (approximateArc vm stmt).1.posStack.getLastD defaultPosition =
        { state := { vm.state with moveMode := moveModeLinear },
          x := (calcPos vm stmt).x, y := (calcPos vm stmt).y,
          z := (calcPos vm stmt).z }) := by
  have hno : ¬(arcRadius1 vm stmt = 0 ∨ arcRadius2 vm stmt = 0) := by
    push_neg
    exact ⟨h1, h2⟩
  have hle : ¬(0.01 < |(arcRadius2 vm stmt - arcRadius1 vm stmt) / arcRadius1 vm stmt|) :=
    not_lt.mpr h3
  have heq := approximateArc_of_checks vm stmt hno hle
  have hplane := plane_cases_of_radius_ne_zero vm stmt h1
  refine ⟨by rw [heq], ?_, ?_⟩
  · rw [heq]
    dsimp only
    rw [arcAdd_length _ _ _ _ _ hplane, arcLoop_length vm stmt hplane]
    omega
  · intro hmet hmov
    have hmet2 : (arcLoop vm stmt).metric = true := by
      rw [arcLoop_metric]; exact hmet
    have hmov2 : (arcLoop vm stmt).absoluteMove = true := by
      rw [arcLoop_absoluteMove]; exact hmov
    rw [heq]
    dsimp only
    rcases hplane with hp | hp | hp
    · rw [arcAdd_getLast_XY vm _ _ _ _ hp hmet2 hmov2, arcLoop_state]
      obtain ⟨he1, he2, he3⟩ := arcFrame_ends_XY vm stmt hp
      rw [he1, he2, he3]
    · rw [arcAdd_getLast_XZ vm _ _ _ _ hp hmet2 hmov2, arcLoop_state]
      obtain ⟨he1, he2, he3⟩ := arcFrame_ends_XZ vm stmt hp
      rw [he1, he2, he3]
    · rw [arcAdd_getLast_YZ vm _ _ _ _ hp hmet2 hmov2, arcLoop_state]
      obtain ⟨he1, he2, he3⟩ := arcFrame_ends_YZ vm stmt hp
      rw [he1, he2, he3]

/-- Claim C6, witness: the quarter circle with minArcLineLength 1 has
steps = 1 and ends with stack length 1 + 3 = 4, the last entry being the
exact end point (0, 1, 0) with the linear-move state. -/
theorem arc_emits_start_interpolations_then_exact_end_witness :
    (approximateArc (mArc 1) sArc).1.posStack.length = 4 ∧
    (approximateArc (mArc 1) sArc).1.posStack.getLastD defaultPosition =
      { state := { defaultState with moveMode := moveModeLinear },
        x := 0, y := 1, z := 0 } := by
  have h := arc_emits_start_interpolations_then_exact_end (mArc 1) sArc
    (by rw [arcRadius1_mArc]; norm_num)
    (by rw [arcRadius2_mArc]; norm_num)
    (by rw [arcRadius1_mArc, arcRadius2_mArc]; norm_num)
  constructor
  · rw [h.2.1, arcStepsOf_mArc_one]
    norm_num [mArc]
    omega
  · have h2 := h.2.2 rfl rfl
    rw [h2, calcPos_mArc]
    norm_num [mArc, defaultState, State.mk.injEq, Position.mk.injEq]

/-- Claim C6, counterexample: the metric quarter circle passes the radius
checks and has steps = 1, yet 3 positions are appended (stack length 4 from
1), not the steps+1 = 2 the claim states; and on the imperial quarter
circle the final appended point has y = 25.4 * 25.4 = 645.16 while the
resolved end position has y = 25.4, so the last appended position is not
the exact resolved end point either. -/
theorem arc_emits_extra_start_point_cex :
    ((approximateArc (mArc 1) sArc).2 = none ∧
     arcStepsOf (mArc 1) sArc = 1 ∧
     (approximateArc (mArc 1) sArc).1.posStack.length = 4) ∧
    ((approximateArc mArcImp sArc).2 = none ∧
     (calcPos mArcImp sArc).y = 25.4 ∧
     ((approximateArc mArcImp sArc).1.posStack.getLastD defaultPosition).y = 645.16 ∧
     ((approximateArc mArcImp sArc).1.posStack.getLastD defaultPosition).y ≠
       (calcPos mArcImp sArc).y) := by
  constructor
  · have hno : ¬(arcRadius1 (mArc 1) sArc = 0 ∨ arcRadius2 (mArc 1) sArc = 0) := by
      rw [arcRadius1_mArc, arcRadius2_mArc]
      norm_num
    have hle : ¬(0.01 < |(arcRadius2 (mArc 1) sArc - arcRadius1 (mArc 1) sArc) /
        arcRadius1 (mArc 1) sArc|) := by
      rw [arcRadius1_mArc, arcRadius2_mArc]
      norm_num
    have heq := approximateArc_of_checks (mArc 1) sArc hno hle
    have hplane : (mArc 1).movePlane = planeXY ∨ (mArc 1).movePlane = planeXZ ∨
        (mArc 1).movePlane = planeYZ := Or.inl rfl
    refine ⟨by rw [heq], arcStepsOf_mArc_one, ?_⟩
    rw [heq]
    dsimp only
    rw [arcAdd_length _ _ _ _ _ hplane, arcLoop_length _ _ hplane, arcStepsOf_mArc_one]
    norm_num [mArc]
    omega
  · have hno : ¬(arcRadius1 mArcImp sArc = 0 ∨ arcRadius2 mArcImp sArc = 0) := by
      rw [arcRadius1_mArcImp, arcRadius2_mArcImp]
      norm_num
    have hle : ¬(0.01 < |(arcRadius2 mArcImp sArc - arcRadius1 mArcImp sArc) /
        arcRadius1 mArcImp sArc|) := by
      rw [arcRadius1_mArcImp, arcRadius2_mArcImp]
      norm_num
    have heq := approximateArc_of_checks mArcImp sArc hno hle
    have hmet2 : (arcLoop mArcImp sArc).metric = false := by
      rw [arcLoop_metric]; rfl
    have hmov2 : (arcLoop mArcImp sArc).absoluteMove = true := by
      rw [arcLoop_absoluteMove]; rfl
    have hlast : (approximateArc mArcImp sArc).1.posStack.getLastD defaultPosition =
        { state := (arcLoop mArcImp sArc).state,
          x := (arcFrame mArcImp sArc).e1 * 25.4,
          y := (arcFrame mArcImp sArc).e2 * 25.4,
          z := (arcFrame mArcImp sArc).e3 * 25.4 } := by
      rw [heq]
      dsimp only
      rw [arcAdd_getLast_XY_imperial mArcImp _ _ _ _ rfl hmet2 hmov2]
    refine ⟨by rw [heq], by rw [calcPos_mArcImp], ?_, ?_⟩
    · rw [hlast, arcFrame_mArcImp]
      norm_num
    · rw [hlast, arcFrame_mArcImp, calcPos_mArcImp]
      norm_num

end Gocnc
